import Mathlib

/-!
Shallow embedding of the track classification, deletion planning and remux
execution logic of `scan.py` (movie_track_analyzer).

The probe result of a media file is modelled as a structured record
mirroring the JSON document returned by the external probing tool
(`streams[]` with `codec_type`, `codec_name`, `channels`, `sample_rate`,
optional `bit_rate`, optional `tags.language` / `tags.title`, `index`, and
`format.duration`).  Fields the script reads unconditionally on audio
streams (`codec_name`, `channels`, `sample_rate`, `index`) are modelled as
total fields; fields it reads through `.get` with a default are modelled
as `Option`.  Floating point duration is modelled as an exact rational.
-/

namespace MovieTrackAnalyzer

/-- Stream tags as read through `stream.get('tags', {}).get(...)`. -/
structure Tags where
  language : Option String
  title : Option String
deriving DecidableEq

/-- One entry of the probe result's `streams` list. -/
structure ProbeStream where
  codec_type : String
  codec_name : String
  channels : Nat
  sample_rate : Nat
  bit_rate : Option Int
  index : Nat
  tags : Option Tags
deriving DecidableEq

/-- The parsed probe document: the `streams` list and `format.duration`. -/
structure ProbeResult where
  streams : List ProbeStream
  duration : ℚ
deriving DecidableEq

/-- Python `str.lower()` restricted to the ASCII range relevant to language
tags and codec names, computed structurally over the character list. -/
def lowerAscii (s : String) : String :=
  String.mk (s.data.map Char.toLower)

/-- Python slicing `s[:n]` by characters (code points). -/
def takeChars (s : String) (n : Nat) : String :=
  String.mk (s.data.take n)

/-- Python `stream.get('tags', {}).get(key, dflt)`: the default is used when
the `tags` object is missing or the key is missing in it. -/
def getTagField (s : ProbeStream) (f : Tags → Option String) (dflt : String) : String :=
  match s.tags with
  | none => dflt
  | some t => (f t).getD dflt

/-- Language tag lookup, `stream.get('tags', {}).get('language', dflt)`. -/
def getLang (s : ProbeStream) (dflt : String) : String :=
  getTagField s Tags.language dflt

/-- Line 50: `[stream for stream in info['streams'] if stream['codec_type'] == 'audio']`. -/
def audioStreams (p : ProbeResult) : List ProbeStream :=
  p.streams.filter (fun s => s.codec_type == "audio")

/-- Line 53: `any([... if stream.get('tags', {}).get('language', '') == 'eng'])`.
Note the comparison is case sensitive and the default is the empty string. -/
def hasEngExact (ss : List ProbeStream) : Bool :=
  ss.any (fun s => getLang s "" == "eng")

/-- Line 58: `any(stream.get('tags', {}).get('language', '').lower() == 'eng' ...)`. -/
def hasEngLower (ss : List ProbeStream) : Bool :=
  ss.any (fun s => lowerAscii (getLang s "") == "eng")

/-- Line 59: `any(... .lower() not in ['unknown', 'eng'] ...)`. -/
def hasOtherLang (ss : List ProbeStream) : Bool :=
  ss.any (fun s => !(["unknown", "eng"].contains (lowerAscii (getLang s ""))))

/-- Line 60: `len(set([stream.get('tags', {}).get('language', '').lower() ...])) == 1`.
The missing-tag default here is the empty string, not `"unknown"`. -/
def all_same_language (ss : List ProbeStream) : Bool :=
  ((ss.map (fun s => lowerAscii (getLang s ""))).dedup.length == 1)

/-- One row of the `audio_tracks` list built at lines 99-109.  `bitrate` is
the Python variable `bitrate` (`None` or an int); `size` is the value
`(bitrate * file_duration) / (8 * 1024 * 1024)` in MB, present exactly when
`if bitrate:` is truthy (present and nonzero). -/
structure AudioTrack where
  file : String
  fullFilePath : String
  track : Nat
  language : String
  format : String
  channels : Nat
  bitrate : Option Int
  title : String
  size : Option ℚ
deriving DecidableEq

/-- Lines 69-109 for one audio stream: language default `'unknown'` (no case
conversion), title truncated to 40 characters, declared bit-rate preferred,
aac estimate `channels * sample_rate` otherwise, size computed only when the
resulting bitrate is truthy (nonzero). -/
def mkAudioTrack (path : String) (dur : ℚ) (s : ProbeStream) : AudioTrack :=
  let language := getLang s "unknown"
  let title := takeChars (getTagField s Tags.title "") 40
  let bitrate : Option Int :=
    match s.bit_rate with
    | some b => some b
    | none =>
      if lowerAscii s.codec_name == "aac" then some ((s.channels : Int) * (s.sample_rate : Int))
      else none
  let size : Option ℚ :=
    match bitrate with
    | some b => if b == 0 then none else some ((b : ℚ) * dur / (8 * 1024 * 1024))
    | none => none
  { file := path, fullFilePath := path, track := s.index, language := language,
    format := s.codec_name, channels := s.channels, bitrate := bitrate,
    title := title, size := size }

/-- The filter configuration options read from `args` at lines 32-39. -/
structure Config where
  exclude_same : Bool
  only_same : Bool
  track_number : Option Int
  no_unknown : Bool
  only_unknown : Bool
  foreign_only : Bool
deriving DecidableEq

/-- Line 57: `track_number is None or len(audio_streams) >= track_number`. -/
def trackCountOk (tn : Option Int) (len : Nat) : Bool :=
  match tn with
  | none => true
  | some n => n ≤ (len : Int)

/-- Lines 72-75, the per-stream `continue` checks: the stream survives when
neither the `no_unknown` nor the `only_unknown` continue fires. -/
def keepStream (cfg : Config) (s : ProbeStream) : Bool :=
  let lang := getLang s "unknown"
  !(cfg.no_unknown && lowerAscii lang == "unknown")
    && !(cfg.only_unknown && !(lowerAscii lang == "unknown"))

/-- Lines 49-110 for one successfully probed file: the tracks appended to
`audio_tracks` for this file.  Each `continue`/failed `if` contributes the
empty list. -/
def processFile (cfg : Config) (path : String) (p : ProbeResult) : List AudioTrack :=
  let ss := audioStreams p
  if cfg.foreign_only && hasEngExact ss then []
  else if !trackCountOk cfg.track_number ss.length then []
  else if cfg.exclude_same && all_same_language ss then []
  else if cfg.only_same && !all_same_language ss then []
  else if !cfg.foreign_only || (!hasEngLower ss && hasOtherLang ss) then
    (ss.filter (keepStream cfg)).map (mkAudioTrack path p.duration)
  else []

/-- Lines 44-120: the per-file loop of `get_audio_track_info`.  The body of
the loop is wrapped in try/except; a file whose probe invocation fails or
whose result cannot be parsed is represented by `Except.error msg` and
contributes no tracks and one error string (line 112), after which
processing continues with the next file. -/
def get_audio_track_info (cfg : Config) :
    List (String × Except String ProbeResult) → List AudioTrack × List String
  | [] => ([], [])
  | (path, r) :: rest =>
    let acc := get_audio_track_info cfg rest
    match r with
    | .ok p => (processFile cfg path p ++ acc.1, acc.2)
    | .error msg => (acc.1, ("Error processing " ++ path ++ ": " ++ msg) :: acc.2)

/-- One entry of `movie_data_list` (lines 285-297): file paths and the
resolved original language, which is `none` when the metadata lookup or the
language-code conversion failed. -/
structure MovieData where
  fullFilePath : String
  file : String
  original_language : Option String
deriving DecidableEq

/-- One entry of `file_summary` (lines 189-194).  The source stores each
track as the display string `f"{track['Track']}({track['Language']})"` and
later re-parses the leading integer with `split('(')[0]`; we keep the
(index, language) pair, which is exactly the information that round-trips
through that formatting. -/
structure Summary where
  file_name : String
  original_language : Option String
  tracks_to_delete : List (Nat × String)
  tracks_to_keep : List (Nat × String)
deriving DecidableEq

/-- Lines 173-185: partition the file's tracks by
`track["Language"] != original_language` (a Python comparison against
`None` is always unequal, so an absent original language deletes every
track). -/
def planFile (audio_tracks : List AudioTrack) (md : MovieData) : Summary :=
  let fts := audio_tracks.filter (fun t => t.file == md.fullFilePath)
  { file_name := md.file
  , original_language := md.original_language
  , tracks_to_delete :=
      (fts.filter (fun t => !(some t.language == md.original_language))).map
        (fun t => (t.track, t.language))
  , tracks_to_keep :=
      (fts.filter (fun t => some t.language == md.original_language)).map
        (fun t => (t.track, t.language)) }

/-- Lines 172-194: `file_summary` collects, in order, the plan of each movie
that has at least one track to keep (line 188: `if tracks_to_keep:`). -/
def tmdb_file_summary (mds : List MovieData) (audio_tracks : List AudioTrack) :
    List Summary :=
  mds.filterMap (fun md =>
    if (planFile audio_tracks md).tracks_to_keep.isEmpty then none
    else some (planFile audio_tracks md))

/-- The stream-selection directive handed to the external remux tool:
`-map 0` plus one `-map -0:a:N` exclusion per entry of `audioExclusions`. -/
structure RemuxDirective where
  mapAll : Bool
  audioExclusions : List Int
deriving DecidableEq

/-- Line 220: `-map -0:a:{int(track.split('(')[0]) - 1}` — the excluded
audio ordinal is the recorded stream index minus one. -/
def tmdbDirective (s : Summary) : RemuxDirective :=
  { mapAll := true
  , audioExclusions := s.tracks_to_delete.map (fun d => (d.1 : Int) - 1) }

/-- Python `int(...)` on a digit string, as applied to validated tokens:
the usual base-10 value of the digit characters. -/
def pyInt (t : String) : Nat :=
  t.data.foldl (fun n c => 10 * n + (c.toNat - 48)) 0

/-- Line 403: `-map -0:a:{int(track) - 1}` over the user's tokens. -/
def manualDirective (tokens : List String) : RemuxDirective :=
  { mapAll := true
  , audioExclusions := tokens.map (fun t => (pyInt t : Int) - 1) }

/-- Python `str.isdigit` restricted to the ASCII digits that matter here:
nonempty and all digits. -/
def pyIsDigit (t : String) : Bool :=
  !t.data.isEmpty && t.data.all Char.isDigit

/-- Line 391, left disjunct, for a single token:
`track.isdigit() and int(track) in valid_tracks`. -/
def tokenValid (validTracks : List Nat) (t : String) : Bool :=
  pyIsDigit t && validTracks.contains (pyInt t)

/-- Line 391: the selection is accepted (the prompt loop breaks) when every
token is a valid track number, or when any token equals `'s'`. -/
def selectionAccepted (validTracks : List Nat) (tokens : List String) : Bool :=
  tokens.all (tokenValid validTracks) || tokens.contains "s"

/-- The observable effects of executing one file's plan: whether the remux
ran, the directive it was given, which filesystem mutations happened, what
delta was added to `total_space_saved`, and what was reported. -/
structure ExecResult where
  ranRemux : Bool
  directive : RemuxDirective
  originalRemoved : Bool
  renamedTempOverOriginal : Bool
  tempDeleted : Bool
  spaceSavedAdded : Option Int
  printedSuccess : Bool
  reportedFailure : Bool
deriving DecidableEq

/-- Lines 227-241, the metadata-driven execution of one approved summary.
The sizes are measured and the delta added to `total_space_saved`, and the
success message printed, before the exit status is inspected (lines
228-232); only the remove/rename/temp-delete actions depend on
`process.returncode` (lines 236-241). -/
def tmdbFileStep (s : Summary) (exitCode : Int) (origSize newSize : Int) : ExecResult :=
  { ranRemux := true
  , directive := tmdbDirective s
  , spaceSavedAdded := some (origSize - newSize)
  , printedSuccess := true
  , originalRemoved := exitCode == 0
  , renamedTempOverOriginal := exitCode == 0
  , tempDeleted := !(exitCode == 0)
  , reportedFailure := !(exitCode == 0) }

/-- Lines 396-421, the manual-selection execution of one file given the
accepted tokens.  If any token is `'s'` the file is skipped (line 396).
Otherwise the remux is run and then — with no inspection of
`process.returncode` anywhere in this path — the sizes are measured, the
delta accumulated, success printed, and the original removed and the
temporary file renamed over it (lines 412-421). -/
def manualFileStep (tokens : List String) (exitCode : Int) (origSize newSize : Int) :
    ExecResult :=
  if tokens.contains "s" then
    { ranRemux := false
    , directive := { mapAll := false, audioExclusions := [] }
    , originalRemoved := false
    , renamedTempOverOriginal := false
    , tempDeleted := false
    , spaceSavedAdded := none
    , printedSuccess := false
    , reportedFailure := false }
  else
    { ranRemux := true
    , directive := manualDirective tokens
    , spaceSavedAdded := some (origSize - newSize)
    , printedSuccess := true
    , originalRemoved := true
    , renamedTempOverOriginal := true
    , tempDeleted := false
    , reportedFailure := false }

/-- A configuration with every filter disabled, as produced by running the
script with only the required arguments. -/
def cfgAllOff : Config :=
  { exclude_same := false, only_same := false, track_number := none,
    no_unknown := false, only_unknown := false, foreign_only := false }

/-- Modelled from the spec: the spec addresses a deleted track by its
0-based ordinal position within the file's audio-only stream list; this is
the claim-side addressing, to be compared with `tmdbDirective`. -/
def audioOrdinal (p : ProbeResult) (globalIdx : Nat) : Option Nat :=
  (audioStreams p).findIdx? (fun s => s.index == globalIdx)

/-- Modelled from the spec: `allSameLanguage` computed over language codes
where a missing tag denotes the code `"unknown"`, per the spec's data
model; to be compared with `all_same_language`. -/
def allSameLanguageSpec (ss : List ProbeStream) : Bool :=
  ((ss.map (fun s => lowerAscii (getLang s "unknown"))).dedup.length == 1)

/-! Concrete streams and files used to evaluate the definitions. -/

/-- An audio stream whose language tag is upper-case `"ENG"`. -/
def sENGcase : ProbeStream :=
  ⟨"audio", "ac3", 6, 48000, none, 1, some ⟨some "ENG", none⟩⟩

/-- A video stream, as it appears at container index 0. -/
def sVideo : ProbeStream := ⟨"video", "h264", 0, 0, none, 0, none⟩

/-- A subtitle stream at container index 1. -/
def sSub : ProbeStream := ⟨"subtitle", "subrip", 0, 0, none, 1, none⟩

/-- A French audio stream at container index 2. -/
def sFre2 : ProbeStream := ⟨"audio", "dts", 6, 48000, none, 2, some ⟨some "fre", none⟩⟩

/-- An English audio stream at container index 3. -/
def sEng3 : ProbeStream := ⟨"audio", "dts", 6, 48000, none, 3, some ⟨some "eng", none⟩⟩

/-- A probe result whose audio streams sit at container indices 2 and 3
(after a video and a subtitle stream), so that a track's container-global
index differs from its ordinal among the audio streams. -/
def pTwoAudio : ProbeResult := ⟨[sVideo, sSub, sFre2, sEng3], 1⟩

/-- A probe result containing the upper-case-tagged English stream. -/
def pENG : ProbeResult := ⟨[sVideo, sENGcase], 100⟩

/-- The all-off configuration with only `foreign_only` enabled. -/
def cfgForeign : Config := { cfgAllOff with foreign_only := true }

/-- An audio stream with a declared bit-rate of 0. -/
def sBr0 : ProbeStream := ⟨"audio", "ac3", 2, 48000, some 0, 1, none⟩

/-- An aac stream with no declared bit-rate (spec scenario: 2 channels at
48000 Hz). -/
def sAac : ProbeStream := ⟨"audio", "aac", 2, 48000, none, 1, none⟩

/-- An audio stream whose language tag is literally `"unknown"`. -/
def sTagUnknown : ProbeStream :=
  ⟨"audio", "ac3", 2, 48000, none, 1, some ⟨some "unknown", none⟩⟩

/-- An audio stream with no tags object at all. -/
def sNoTags : ProbeStream := ⟨"audio", "ac3", 2, 48000, none, 2, none⟩

/-- A concrete English audio track of file `m.mkv`. -/
def trEng : AudioTrack :=
  ⟨"m.mkv", "m.mkv", 1, "eng", "aac", 2, some 128000, "", none⟩

/-- Movie data for `m.mkv` with resolved original language `eng`. -/
def mdEng : MovieData := ⟨"m.mkv", "m.mkv", some "eng"⟩

/-! Theorems about the embedded program. -/

/-- Each filter being disabled, `processFile` keeps every audio stream of
the probe result, in order. -/
theorem processFile_cfgAllOff (path : String) (p : ProbeResult) :
    processFile cfgAllOff path p = (audioStreams p).map (mkAudioTrack path p.duration) := by
  show ((audioStreams p).filter (keepStream cfgAllOff)).map (mkAudioTrack path p.duration)
      = (audioStreams p).map (mkAudioTrack path p.duration)
  congr 1
  exact List.filter_eq_self.mpr (fun s _ => rfl)

/-- Splitting `get_audio_track_info` over an appended file list. -/
theorem get_audio_track_info_append (cfg : Config)
    (xs ys : List (String × Except String ProbeResult)) :
    (get_audio_track_info cfg (xs ++ ys)).1
        = (get_audio_track_info cfg xs).1 ++ (get_audio_track_info cfg ys).1
      ∧ (get_audio_track_info cfg (xs ++ ys)).2
        = (get_audio_track_info cfg xs).2 ++ (get_audio_track_info cfg ys).2 := by
  induction xs with
  | nil => simp [get_audio_track_info]
  | cons x xs ih =>
    obtain ⟨x1, x2⟩ := x
    cases x2 <;> simp [get_audio_track_info, ih.1, ih.2]

/-- C9: a file whose probe fails (or whose result cannot be parsed)
contributes no tracks and exactly one error record naming the file and the
failure message, and the extractor still returns the tracks and errors of
every other file, in order — no per-file probe failure aborts the batch. -/
theorem probe_failure_isolated (cfg : Config)
    (xs : List (String × Except String ProbeResult)) (path msg : String)
    (ys : List (String × Except String ProbeResult)) :
    (get_audio_track_info cfg (xs ++ (path, Except.error msg) :: ys)).1
        = (get_audio_track_info cfg xs).1 ++ (get_audio_track_info cfg ys).1
      ∧ (get_audio_track_info cfg (xs ++ (path, Except.error msg) :: ys)).2
        = (get_audio_track_info cfg xs).2
            ++ ("Error processing " ++ path ++ ": " ++ msg)
              :: (get_audio_track_info cfg ys).2 := by
  have h := get_audio_track_info_append cfg xs ((path, Except.error msg) :: ys)
  constructor
  · rw [h.1]
    simp [get_audio_track_info]
  · rw [h.2]
    simp [get_audio_track_info]

/-- C4: with `foreign_only` enabled, a file having any track whose language
tag lower-cases to `eng` contributes no track at all to the extractor's
output (its per-file result is empty), however the tag is cased. -/
theorem foreign_only_excludes_english_files (cfg : Config) (path : String)
    (p : ProbeResult) (hfo : cfg.foreign_only = true)
    (heng : hasEngLower (audioStreams p) = true) :
    processFile cfg path p = [] := by
  rw [processFile]
  rw [hfo, heng]
  simp

/-- C4 witness: a concrete probe result with an `"ENG"`-tagged track, run
with `foreign_only` enabled, yields no tracks. -/
theorem foreign_only_excludes_english_files_witness :
    cfgForeign.foreign_only = true
      ∧ hasEngLower (audioStreams pENG) = true
      ∧ processFile cfgForeign "a.mkv" pENG = [] :=
  ⟨rfl, by decide,
   foreign_only_excludes_english_files cfgForeign "a.mkv" pENG rfl (by decide)⟩

/-- C3: every summary in the automatic (language-driven) deletion batch has
at least one track to keep; a file all of whose tracks differ from the
resolved original language — including an unresolved (absent) original
language — is excluded from the batch entirely. -/
theorem tmdb_batch_keeps_nonempty (mds : List MovieData)
    (tracks : List AudioTrack) (s : Summary)
    (hs : s ∈ tmdb_file_summary mds tracks) :
    s.tracks_to_keep ≠ [] := by
  simp only [tmdb_file_summary, List.mem_filterMap] at hs
  obtain ⟨md, -, hmd⟩ := hs
  by_cases h : (planFile tracks md).tracks_to_keep.isEmpty
  · simp [h] at hmd
  · rw [if_neg h] at hmd
    injection hmd with hmd
    rw [← hmd]
    simpa [List.isEmpty_iff] using h

/-- C3 witness: a file with one English track and original language `eng`
appears in the batch and has a nonempty keep list. -/
theorem tmdb_batch_keeps_nonempty_witness :
    planFile [trEng] mdEng ∈ tmdb_file_summary [mdEng] [trEng]
      ∧ (planFile [trEng] mdEng).tracks_to_keep ≠ [] :=
  ⟨by decide, tmdb_batch_keeps_nonempty [mdEng] [trEng] _ (by decide)⟩

/-- C8 counterexample: on a file with one track tagged literally
`"unknown"` and one track with no language tag, the code's classification
(missing tag defaults to the empty string) is false, while the set of
language codes in the claim's sense (missing tag denotes `"unknown"`) has
exactly one element — so the claimed equivalence fails. -/
theorem all_same_language_spec_mismatch :
    all_same_language [sTagUnknown, sNoTags] = false
      ∧ allSameLanguageSpec [sTagUnknown, sNoTags] = true := by
  decide

/-- C8 amended: `all_same_language` is true exactly when the set of
lower-cased language codes, with a missing tag denoting the empty string
(not `"unknown"`), has exactly one element; a file with a single audio
track is always classified as all-same-language. -/
theorem all_same_language_amended (ss : List ProbeStream) :
    (all_same_language ss
        = ((ss.map (fun s => lowerAscii (getLang s ""))).toFinset.card == 1))
      ∧ (∀ s, all_same_language [s] = true) := by
  constructor
  · simp [all_same_language, List.card_toFinset]
  · intro s
    simp [all_same_language]

/-- C6 counterexample: a stream whose language tag is `"ENG"` yields an
AudioTrack whose language field is `"ENG"`, not the lower-cased `"eng"` the
claim prescribes. -/
theorem language_not_lowercased :
    (mkAudioTrack "p.mkv" 1 sENGcase).language = "ENG"
      ∧ lowerAscii "ENG" = "eng"
      ∧ (mkAudioTrack "p.mkv" 1 sENGcase).language ≠ "eng" := by
  decide

/-- C6 amended: the AudioTrack's language field equals the stream's
language tag verbatim (no case conversion), and equals `"unknown"` when
the tags object or the language tag is missing. -/
theorem audiotrack_language_amended (path : String) (dur : ℚ) (s : ProbeStream) :
    (∀ l, s.tags.bind Tags.language = some l → (mkAudioTrack path dur s).language = l)
      ∧ (s.tags.bind Tags.language = none → (mkAudioTrack path dur s).language = "unknown") := by
  have h : (mkAudioTrack path dur s).language = (s.tags.bind Tags.language).getD "unknown" := by
    cases hs : s.tags <;> simp [mkAudioTrack, getLang, getTagField, hs]
  constructor
  · intro l hl
    rw [h, hl]
    rfl
  · intro hl
    rw [h, hl]
    rfl

/-- C6 amended witness: the `"ENG"`-tagged stream's track keeps the tag
verbatim. -/
theorem audiotrack_language_amended_witness :
    sENGcase.tags.bind Tags.language = some "ENG"
      ∧ (mkAudioTrack "p.mkv" 1 sENGcase).language = "ENG" :=
  ⟨rfl, (audiotrack_language_amended "p.mkv" 1 sENGcase).1 "ENG" rfl⟩

/-- C7 counterexample: a stream with a declared bit-rate of 0 yields a
track whose bitrate is present (`some 0`) but whose estimated size is
absent, because the source guards the size computation with Python
truthiness (`if bitrate:`), refuting the claim that a present bitrate —
including a declared 0 — always comes with a present size. -/
theorem declared_zero_bitrate_size_absent :
    (mkAudioTrack "p.mkv" 3600 sBr0).bitrate = some 0
      ∧ (mkAudioTrack "p.mkv" 3600 sBr0).size = none := by
  decide

/-- C7 amended: the bitrate is the declared bit-rate when present, else the
aac estimate `channels * sample_rate`, else absent; the estimated size in
bytes (the stored value is in MB, so bytes = size * 1024 * 1024) equals
`bitrate * duration / 8`, and the size is present exactly when the bitrate
is present and nonzero. -/
theorem bitrate_and_size_amended (path : String) (dur : ℚ) (s : ProbeStream) :
    (∀ b, s.bit_rate = some b → (mkAudioTrack path dur s).bitrate = some b)
      ∧ (s.bit_rate = none → lowerAscii s.codec_name = "aac" →
          (mkAudioTrack path dur s).bitrate
            = some ((s.channels : Int) * (s.sample_rate : Int)))
      ∧ (s.bit_rate = none → lowerAscii s.codec_name ≠ "aac" →
          (mkAudioTrack path dur s).bitrate = none)
      ∧ (∀ b q, (mkAudioTrack path dur s).bitrate = some b →
          (mkAudioTrack path dur s).size = some q →
          q * (1024 * 1024) = (b : ℚ) * dur / 8)
      ∧ ((mkAudioTrack path dur s).size.isSome
          = ((mkAudioTrack path dur s).bitrate.isSome
              && !((mkAudioTrack path dur s).bitrate == some 0))) := by
  refine ⟨?_, ?_, ?_, ?_, ?_⟩
  · intro b hb
    simp [mkAudioTrack, hb]
  · intro hb hc
    simp [mkAudioTrack, hb, hc]
  · intro hb hc
    simp [mkAudioTrack, hb, hc]
  · intro b q hb hq
    have hsz : (mkAudioTrack path dur s).size
        = (match (mkAudioTrack path dur s).bitrate with
            | some b => if b == 0 then none
                else some ((b : ℚ) * dur / (8 * 1024 * 1024))
            | none => none) := rfl
    rw [hsz, hb] at hq
    by_cases h0 : b = 0
    · simp [h0] at hq
    · simp [h0] at hq
      rw [← hq]
      field_simp
      ring
  · have hsz : (mkAudioTrack path dur s).size
        = (match (mkAudioTrack path dur s).bitrate with
            | some b => if b == 0 then none
                else some ((b : ℚ) * dur / (8 * 1024 * 1024))
            | none => none) := rfl
    rcases hb : (mkAudioTrack path dur s).bitrate with - | b
    · simp [hsz, hb]
    · by_cases h0 : b = 0
      · simp [hsz, hb, h0]
      · simp [hsz, hb, h0]

/-- C7 amended witness: the spec's own scenario — an aac stream with 2
channels at 48000 Hz and no declared bit-rate — gets the estimated bitrate
96000. -/
theorem bitrate_and_size_amended_witness :
    sAac.bit_rate = none
      ∧ lowerAscii sAac.codec_name = "aac"
      ∧ (mkAudioTrack "p.mkv" 3600 sAac).bitrate = some 96000 :=
  ⟨rfl, by decide, by
    have h := (bitrate_and_size_amended "p.mkv" 3600 sAac).2.1 rfl (by decide)
    simpa using h⟩

/-- C2 counterexample: in a file whose streams are video (index 0),
subtitle (index 1) and audio streams at container indices 2 and 3, deleting
the audio stream with container index 2 (the first audio stream, audio-only
ordinal 0) produces the exclusion ordinal 1 = index - 1, not the 0-based
ordinal 0 within the audio-only stream list that the claim prescribes. -/
theorem exclusion_not_audio_ordinal :
    (tmdbDirective (planFile (processFile cfgAllOff "m.mkv" pTwoAudio)
        ⟨"m.mkv", "m.mkv", some "eng"⟩)).audioExclusions = [1]
      ∧ audioOrdinal pTwoAudio 2 = some 0
      ∧ ((1 : Int) ≠ ((0 : Nat) : Int)) := by
  decide

/-- C2 amended: in both execution paths the directive passed to the remux
tool is `map 0` plus one exclusion per deleted track, where each exclusion
addresses the deleted audio track as the track's recorded container-global
stream index minus one — not its 0-based ordinal within the audio-only
stream list (the two agree only when the audio streams occupy consecutive
container indices starting at 1).  In the metadata-driven path the
exclusions are exactly the probe-time global indices of the
differing-language streams, each minus one; in the manual path every
accepted non-skip selection yields one exclusion per token, each equal to
the token's value minus one, where validation guarantees each token's
value is a recorded track index. -/
theorem remux_exclusions_use_global_index (path : String) (p : ProbeResult)
    (orig : Option String) (validTracks : List Nat) (tokens : List String)
    (e i f : Int) :
    ((tmdbDirective (planFile (processFile cfgAllOff path p) ⟨path, path, orig⟩)).mapAll = true
      ∧ (tmdbDirective (planFile (processFile cfgAllOff path p) ⟨path, path, orig⟩)).audioExclusions
        = ((audioStreams p).filter
            (fun s => !(some (getLang s "unknown") == orig))).map
            (fun s => (s.index : Int) - 1))
      ∧ (selectionAccepted validTracks tokens = true →
          tokens.contains "s" = false →
          (manualFileStep tokens e i f).directive.mapAll = true
            ∧ (manualFileStep tokens e i f).directive.audioExclusions
              = tokens.map (fun t => (pyInt t : Int) - 1)
            ∧ ∀ x ∈ (manualFileStep tokens e i f).directive.audioExclusions,
                ∃ n, n ∈ validTracks ∧ x = (n : Int) - 1) := by
  constructor
  · refine ⟨rfl, ?_⟩
    rw [processFile_cfgAllOff]
    induction audioStreams p with
    | nil => rfl
    | cons x xs ih =>
      by_cases hx : some (getLang x "unknown") = orig
      · simp only [tmdbDirective, planFile, List.map_cons, List.filter_cons] at ih ⊢
        simp [mkAudioTrack, hx] at ih ⊢
        exact ih
      · simp only [tmdbDirective, planFile, List.map_cons, List.filter_cons] at ih ⊢
        simp [mkAudioTrack, hx] at ih ⊢
        exact ih
  · intro hacc hns
    have hall : tokens.all (tokenValid validTracks) = true := by
      rw [selectionAccepted, hns] at hacc
      simpa using hacc
    have hdir : (manualFileStep tokens e i f).directive = manualDirective tokens := by
      rw [manualFileStep, if_neg (by simpa using hns)]
    refine ⟨by rw [hdir]; rfl, by rw [hdir]; rfl, ?_⟩
    intro x hx
    rw [hdir] at hx
    simp only [manualDirective, List.mem_map] at hx
    obtain ⟨t, ht, rfl⟩ := hx
    have hv : tokenValid validTracks t = true := List.all_eq_true.mp hall t ht
    have hmem : validTracks.contains (pyInt t) = true :=
      ((Bool.and_eq_true _ _).mp hv).2
    exact ⟨pyInt t, by simpa using hmem, rfl⟩

/-- C2 amended witness: the accepted non-skip selection `["2", "3"]`
against recorded track indices `[2, 3]` produces the exclusion ordinals
`[1, 2]` — each token's value minus one. -/
theorem remux_exclusions_use_global_index_witness :
    selectionAccepted [2, 3] ["2", "3"] = true
      ∧ List.contains ["2", "3"] "s" = false
      ∧ (manualFileStep ["2", "3"] 0 100 40).directive.audioExclusions = [1, 2] :=
  ⟨by decide, by decide, by
    have h := ((remux_exclusions_use_global_index "m.mkv" pTwoAudio (some "eng")
        [2, 3] ["2", "3"] 0 100 40).2 (by decide) (by decide)).2.1
    rw [h]
    decide⟩

/-- C10: in manual-mode selection, any token list containing `'s'` passes
validation whatever the other tokens are, and the file is skipped with no
remux performed; the empty selection also passes validation and proceeds to
a remux with an include-all mapping and no track exclusions. -/
theorem manual_selection_skip_and_empty (validTracks : List Nat)
    (tokens : List String) (e i f : Int) :
    (tokens.contains "s" = true →
        selectionAccepted validTracks tokens = true
          ∧ (manualFileStep tokens e i f).ranRemux = false
          ∧ (manualFileStep tokens e i f).originalRemoved = false)
      ∧ (selectionAccepted validTracks [] = true
          ∧ (manualFileStep ([] : List String) e i f).ranRemux = true
          ∧ (manualFileStep ([] : List String) e i f).directive
              = { mapAll := true, audioExclusions := [] }) := by
  constructor
  · intro hs
    have hm : "s" ∈ tokens := by simpa using hs
    refine ⟨?_, ?_, ?_⟩
    · simp [selectionAccepted, hm]
    · simp [manualFileStep, hm]
    · simp [manualFileStep, hm]
  · refine ⟨?_, ?_, ?_⟩ <;>
      simp [selectionAccepted, manualFileStep, manualDirective]

/-- C10 witness: the token list `["s", "999", "zz"]` contains `'s'`, passes
validation against valid tracks `[1, 2]` although `999` and `zz` are not
valid track numbers, and the file is skipped. -/
theorem manual_selection_skip_and_empty_witness :
    List.contains ["s", "999", "zz"] "s" = true
      ∧ selectionAccepted [1, 2] ["s", "999", "zz"] = true
      ∧ (manualFileStep ["s", "999", "zz"] 0 100 40).ranRemux = false :=
  ⟨by decide,
   ((manual_selection_skip_and_empty [1, 2] ["s", "999", "zz"] 0 100 40).1 (by decide)).1,
   ((manual_selection_skip_and_empty [1, 2] ["s", "999", "zz"] 0 100 40).1 (by decide)).2.1⟩

/-- C1: in the manual-selection execution path the source never inspects
the remux exit status — evaluated at a failing remux (exit status 1), the
original file is still removed and the temporary file renamed over it, the
temporary file is not deleted, and no failure is reported, contradicting
the claim that both execution paths replace the original only after
verified success. -/
theorem manual_failure_still_replaces_original :
    (manualFileStep ["2"] 1 100 40).ranRemux = true
      ∧ (manualFileStep ["2"] 1 100 40).originalRemoved = true
      ∧ (manualFileStep ["2"] 1 100 40).renamedTempOverOriginal = true
      ∧ (manualFileStep ["2"] 1 100 40).tempDeleted = false
      ∧ (manualFileStep ["2"] 1 100 40).reportedFailure = false := by
  decide

/-- C5: evaluated at a failing remux (exit status 1, original 100 bytes,
temporary output 40 bytes), both execution paths still add the size delta
60 to `total_space_saved` and print the success message — the measurement
and accumulation happen before the exit status is checked — contradicting
the claim that a failed remux contributes nothing to the reported total. -/
theorem failed_remux_counted_as_saved :
    (tmdbFileStep ⟨"m.mkv", some "eng", [(2, "fre")], [(3, "eng")]⟩ 1 100 40).spaceSavedAdded
        = some 60
      ∧ (tmdbFileStep ⟨"m.mkv", some "eng", [(2, "fre")], [(3, "eng")]⟩ 1 100 40).printedSuccess
        = true
      ∧ (tmdbFileStep ⟨"m.mkv", some "eng", [(2, "fre")], [(3, "eng")]⟩ 1 100 40).reportedFailure
        = true
      ∧ (manualFileStep ["3"] 1 100 40).spaceSavedAdded = some 60
      ∧ (manualFileStep ["3"] 1 100 40).printedSuccess = true := by
  decide

end MovieTrackAnalyzer
